import Mathlib

/-!
# Verification of the ai-meeting-summary audio/transcription core

Shallow embedding of the audio-processing and transcription-orchestration
code of `act99/ai-meeting-summary` (files `src/audio/processor.py`,
`src/audio/recorder.py`, `src/transcription/whisper_client.py`), together
with theorems checking the repository's specification against it.

Audio sample values and times are modelled as rationals, buffers as lists
of samples, and the Python dictionaries returned by the transcription
functions as structures with one field per dictionary key that the
embedded code reads or writes.
-/

namespace MeetingSummary

/-! ## AudioProcessor (src/audio/processor.py) -/

/-- `AudioProcessor.split_into_chunks` body: the Python loop
`for i in range(0, len(audio_data), chunk_size)` slices
`audio_data[i : i + chunk_size]`, which for a positive step is the
take/drop decomposition below; each slice taken is non-empty, matching the
`if len(chunk) > 0` guard. -/
def chunksOfGo (chunk_size : ℕ) : ℕ → List ℚ → List (List ℚ)
  | _, [] => []
  | 0, _ :: _ => []
  | fuel + 1, x :: xs =>
      (x :: xs).take chunk_size :: chunksOfGo chunk_size fuel ((x :: xs).drop chunk_size)

def chunksOf (chunk_size : ℕ) (audio_data : List ℚ) : List (List ℚ) :=
  chunksOfGo chunk_size audio_data.length audio_data

/-- `AudioProcessor.split_into_chunks(audio_data, sr, chunk_duration_seconds)`.
`chunk_size = chunk_duration_seconds * sr`; when it is zero the Python
`range` raises `ValueError`, the `except` branch catches it and returns
`[audio_data]`. -/
def split_into_chunks (audio_data : List ℚ) (sr : ℕ)
    (chunk_duration_seconds : ℕ) : List (List ℚ) :=
  let chunk_size := chunk_duration_seconds * sr
  if chunk_size = 0 then [audio_data]
  else chunksOf chunk_size audio_data

/-- Mean of squared samples; `rms = np.sqrt(meanSq)`.  For the empty buffer
NumPy yields `nan`, whose comparison `nan > 0` is false; rational division
by zero yields `0`, whose comparison `0 > 0` is likewise false, so the
guarded branch agrees. -/
def meanSq (audio_data : List ℚ) : ℚ :=
  ((audio_data.map fun x => x ^ 2).sum) / audio_data.length

/-- `AudioProcessor.normalize_audio`.  The square root is not rational, so
the embedding receives the code's `rms` value as an argument constrained by
`rms ≥ 0` and `rms ^ 2 = meanSq audio_data` in the theorems about it; the
body is otherwise literal: `if rms > 0: return audio_data / rms * 0.1` else
return the input unchanged. -/
def normalize_audio (audio_data : List ℚ) (rms : ℚ) : List ℚ :=
  if rms > 0 then audio_data.map fun x => x / rms * (1 / 10)
  else audio_data

theorem chunksOfGo_congr (c : ℕ) (hc : c ≠ 0) :
    ∀ fuel₁ fuel₂ (xs : List ℚ), xs.length ≤ fuel₁ → xs.length ≤ fuel₂ →
      chunksOfGo c fuel₁ xs = chunksOfGo c fuel₂ xs := by
  intro fuel₁
  induction fuel₁ with
  | zero =>
    intro fuel₂ xs h1 _
    have hxs : xs = [] := List.length_eq_zero.mp (Nat.le_zero.mp h1)
    subst hxs
    cases fuel₂ <;> rfl
  | succ f ih =>
    intro fuel₂ xs h1 h2
    cases xs with
    | nil => cases fuel₂ <;> rfl
    | cons x xs' =>
      cases fuel₂ with
      | zero => simp at h2
      | succ g =>
        simp only [chunksOfGo]
        congr 1
        apply ih
        · simp only [List.length_drop, List.length_cons] at h1 ⊢
          omega
        · simp only [List.length_drop, List.length_cons] at h2 ⊢
          omega

theorem chunksOf_nil (c : ℕ) : chunksOf c [] = [] := rfl

theorem chunksOf_cons (c : ℕ) (audio_data : List ℚ) (h : audio_data ≠ [])
    (hc : c ≠ 0) :
    chunksOf c audio_data =
      audio_data.take c :: chunksOf c (audio_data.drop c) := by
  obtain ⟨x, xs', rfl⟩ := List.exists_cons_of_ne_nil h
  show chunksOfGo c (x :: xs').length (x :: xs') = _
  simp only [List.length_cons, chunksOfGo]
  congr 1
  apply chunksOfGo_congr c hc
  · simp only [List.length_drop, List.length_cons]
    omega
  · exact Nat.le_refl _

theorem chunksOf_flatten (c : ℕ) (audio_data : List ℚ) (hc : c ≠ 0) :
    (chunksOf c audio_data).flatten = audio_data := by
  by_cases h : audio_data = []
  · subst h; rw [chunksOf_nil]; rfl
  · rw [chunksOf_cons c audio_data h hc]
    have ih := chunksOf_flatten c (audio_data.drop c) hc
    simp [ih]
termination_by audio_data.length
decreasing_by
  simp only [List.length_drop]
  have hl : 0 < audio_data.length := List.length_pos.mpr h
  omega

theorem chunksOf_length (c : ℕ) (audio_data : List ℚ) (hc : c ≠ 0) :
    (chunksOf c audio_data).length = (audio_data.length + c - 1) / c := by
  by_cases h : audio_data = []
  · subst h; rw [chunksOf_nil]
    simp
    rw [Nat.div_eq_of_lt (by omega)]
  · rw [chunksOf_cons c audio_data h hc]
    have ih := chunksOf_length c (audio_data.drop c) hc
    simp only [List.length_cons, ih, List.length_drop]
    have hl : 0 < audio_data.length := List.length_pos.mpr h
    rcases Nat.lt_or_ge audio_data.length c with hlt | hge
    · have h1 : audio_data.length - c + c - 1 < c := by omega
      rw [Nat.div_eq_of_lt h1]
      have h2 : audio_data.length + c - 1 = (audio_data.length - 1) + c := by
        omega
      rw [h2, Nat.add_div_right _ (Nat.pos_of_ne_zero hc),
        Nat.div_eq_of_lt (by omega)]
    · have h2 : audio_data.length - c + c - 1 = audio_data.length - 1 + c - c := by
        omega
      have h3 : audio_data.length + c - 1 = (audio_data.length - c + c - 1) + c := by
        omega
      rw [h3, Nat.add_div_right _ (Nat.pos_of_ne_zero hc)]
termination_by audio_data.length
decreasing_by
  simp only [List.length_drop]
  have hl : 0 < audio_data.length := List.length_pos.mpr h
  omega

theorem split_length_sum (c : ℕ) (audio_data : List ℚ) (hc : c ≠ 0) :
    ((chunksOf c audio_data).map List.length).sum = audio_data.length := by
  have h := chunksOf_flatten c audio_data hc
  calc ((chunksOf c audio_data).map List.length).sum
      = (chunksOf c audio_data).flatten.length := (List.length_flatten _).symm
    _ = audio_data.length := by rw [h]

/-- Claim C3: for a non-empty buffer and positive chunk size,
`split_into_chunks` yields exactly `⌈D/C⌉` consecutive non-overlapping
chunks (their concatenation is the original buffer) whose sample counts —
hence durations — sum exactly to the buffer's; concretely, a 75-sample
buffer at 1 Hz split at 30 seconds yields 3 chunks of sizes 30, 30, 15. -/
theorem C3_split_into_chunks_partition (audio_data : List ℚ)
    (sr chunk_duration_seconds : ℕ) (hne : audio_data ≠ [])
    (hc : 0 < chunk_duration_seconds * sr) :
    ((split_into_chunks audio_data sr chunk_duration_seconds).length
        = (audio_data.length + chunk_duration_seconds * sr - 1)
            / (chunk_duration_seconds * sr)
      ∧ (split_into_chunks audio_data sr chunk_duration_seconds).flatten
          = audio_data
      ∧ ((split_into_chunks audio_data sr chunk_duration_seconds).map
            List.length).sum = audio_data.length)
      ∧ ((split_into_chunks ((List.range 75).map fun n => (n : ℚ)) 1 30).map
          List.length) = [30, 30, 15] := by
  have hcz : chunk_duration_seconds * sr ≠ 0 := Nat.pos_iff_ne_zero.mp hc
  constructor
  · unfold split_into_chunks
    simp only [if_neg hcz]
    exact ⟨chunksOf_length _ _ hcz, chunksOf_flatten _ _ hcz,
      split_length_sum _ _ hcz⟩
  · decide

theorem C3_split_into_chunks_partition_witness :
    (split_into_chunks ((List.range 75).map fun n => (n : ℚ)) 1 30).length = 3
      ∧ (split_into_chunks ((List.range 75).map fun n => (n : ℚ)) 1 30).flatten
          = (List.range 75).map fun n => (n : ℚ) := by
  have h := C3_split_into_chunks_partition
    ((List.range 75).map fun n => (n : ℚ)) 1 30 (by decide) (by decide)
  refine ⟨?_, h.1.2.1⟩
  rw [h.1.1]
  decide

/-- Claim C4 counterexample: on the empty buffer `split_into_chunks`
returns the empty list of chunks, not a single degenerate chunk, so a
caller does receive zero chunks. -/
theorem C4_empty_buffer_counterexample :
    split_into_chunks ([] : List ℚ) 16000 30 = []
      ∧ ¬ split_into_chunks ([] : List ℚ) 16000 30 = [([] : List ℚ)] := by
  decide

/-- Claim C4 (amended): an entirely empty buffer yields the empty chunk
list (zero chunks); every non-empty buffer yields at least one chunk. -/
theorem C4_empty_buffer_amended :
    split_into_chunks ([] : List ℚ) 16000 30 = []
      ∧ ∀ (audio_data : List ℚ) (sr chunk_duration_seconds : ℕ),
          audio_data ≠ [] →
          split_into_chunks audio_data sr chunk_duration_seconds ≠ [] := by
  refine ⟨by decide, ?_⟩
  intro audio_data sr chunk_duration_seconds hne
  unfold split_into_chunks
  by_cases hcz : chunk_duration_seconds * sr = 0
  · simp [hcz]
  · simp only [if_neg hcz]
    rw [chunksOf_cons _ _ hne hcz]
    exact List.cons_ne_nil _ _

theorem C4_empty_buffer_amended_witness :
    split_into_chunks [(1 : ℚ)] 16000 30 ≠ [] :=
  C4_empty_buffer_amended.2 [(1 : ℚ)] 16000 30 (by decide)

/-- Claim C9: with `rms` the (non-negative) root of the mean squared
sample energy, `normalize_audio` rescales a non-silent buffer so that the
mean squared energy of the output is `(1/10)^2` — i.e. its RMS is one
tenth of full scale — and returns a silent buffer (RMS zero) unchanged,
the division being guarded by `rms > 0`. -/
theorem C9_normalize_audio_rms (audio_data : List ℚ) (rms : ℚ)
    (h0 : 0 ≤ rms) (hr : rms ^ 2 = meanSq audio_data) :
    (0 < meanSq audio_data →
        meanSq (normalize_audio audio_data rms) = (1 / 10) ^ 2)
      ∧ (meanSq audio_data = 0 → normalize_audio audio_data rms = audio_data) := by
  constructor
  · intro hpos
    have hrne : rms ≠ 0 := by
      intro h
      rw [h] at hr
      norm_num at hr
      rw [← hr] at hpos
      exact lt_irrefl 0 hpos
    have hrpos : 0 < rms := lt_of_le_of_ne h0 (Ne.symm hrne)
    have hn : ((audio_data.length : ℚ)) ≠ 0 := by
      intro h
      unfold meanSq at hpos
      rw [h, div_zero] at hpos
      exact lt_irrefl 0 hpos
    unfold normalize_audio
    rw [if_pos hrpos]
    unfold meanSq
    rw [List.length_map, List.map_map]
    have hfun : ((fun x : ℚ => x ^ 2) ∘ fun x => x / rms * (1 / 10))
        = fun x : ℚ => x ^ 2 * (1 / (100 * rms ^ 2)) := by
      funext x
      simp only [Function.comp_apply]
      rw [mul_pow, div_pow, one_div, one_div, mul_inv]
      ring
    rw [hfun, List.sum_map_mul_right]
    have hS : ((audio_data.map fun x : ℚ => x ^ 2).sum)
        = rms ^ 2 * (audio_data.length : ℚ) := by
      unfold meanSq at hr
      exact ((eq_div_iff hn).mp hr).symm
    rw [hS]
    field_simp
    ring
  · intro hz
    rw [hz] at hr
    have hr0 : rms = 0 := (pow_eq_zero_iff (two_ne_zero)).mp hr
    rw [hr0]
    simp [normalize_audio]

theorem C9_normalize_audio_rms_witness :
    ((0 : ℚ) ≤ 1 ∧ ((1 : ℚ)) ^ 2 = meanSq [1]
        ∧ meanSq (normalize_audio [(1 : ℚ)] 1) = (1 / 10) ^ 2)
      ∧ normalize_audio [(0 : ℚ)] 0 = [0] := by
  refine ⟨⟨by simp, by simp [meanSq], ?_⟩, ?_⟩
  · exact (C9_normalize_audio_rms [1] 1 (by simp) (by simp [meanSq])).1
      (by simp [meanSq])
  · exact (C9_normalize_audio_rms [0] 0 le_rfl (by simp [meanSq])).2
      (by simp [meanSq])

/-! ## AudioRecorder and MeetingRecorder (src/audio/recorder.py)

The recorder state is the tuple of instance attributes that
`start_recording` and `request_stop` read or write; frames, timestamps,
callbacks and thread handles are modelled by opaque numeric identifiers
since only their identity matters to the claims. -/

structure AudioRecorderState where
  is_recording : Bool
  audio_frames : List ℕ
  start_time : Option ℕ
  duration_limit : Option ℕ
  on_recording_callback : Option ℕ
  recording_thread : Option ℕ
deriving DecidableEq

/-- `AudioRecorder.start_recording(duration_minutes, on_recording_callback)`.
`now` is `datetime.now()`, `config_duration_minutes` is
`config.meeting.duration_minutes`, `new_thread` the freshly created thread.
The Python truthiness test `if duration_minutes:` is false both for `None`
and for `0`, in which cases the configured default applies. -/
def start_recording (s : AudioRecorderState) (duration_minutes : Option ℕ)
    (on_recording_callback : Option ℕ) (now : ℕ)
    (config_duration_minutes : ℕ) (new_thread : ℕ) :
    Bool × AudioRecorderState :=
  if s.is_recording then (false, s)
  else
    (true,
      { is_recording := true
        audio_frames := []
        start_time := some now
        duration_limit := some (match duration_minutes with
          | some d => if d = 0 then config_duration_minutes else d
          | none => config_duration_minutes)
        on_recording_callback := on_recording_callback
        recording_thread := some new_thread })

structure MeetingRecorderState where
  recorder : AudioRecorderState
  _stop_requested : Bool
deriving DecidableEq

/-- `MeetingRecorder.request_stop`: sets `self._stop_requested = True` and,
if the underlying recorder reports an active capture, clears its
`is_recording` flag. -/
def request_stop (s : MeetingRecorderState) : MeetingRecorderState :=
  let s1 : MeetingRecorderState := { s with _stop_requested := true }
  if s1.recorder.is_recording then
    { s1 with recorder := { s1.recorder with is_recording := false } }
  else s1

def idleRecorder : AudioRecorderState :=
  { is_recording := false, audio_frames := [], start_time := none,
    duration_limit := none, on_recording_callback := none,
    recording_thread := none }

/-- Claim C7 counterexample: with no recording active and the stop flag
clear, `request_stop` is not a no-op — it flips `_stop_requested` to true,
changing the recorder manager's state. -/
theorem C7_request_stop_counterexample :
    request_stop { recorder := idleRecorder, _stop_requested := false }
      ≠ { recorder := idleRecorder, _stop_requested := false } := by
  decide

/-- Claim C7 (amended): `request_stop` is idempotent — two successive calls
leave the same state as one — and when no recording is active it leaves
the underlying `AudioRecorder` untouched, only setting the
`_stop_requested` flag; it is a complete no-op exactly when a stop was
already requested while idle. -/
theorem C7_request_stop_amended (s : MeetingRecorderState) :
    request_stop (request_stop s) = request_stop s
      ∧ (s.recorder.is_recording = false →
          request_stop s = { s with _stop_requested := true })
      ∧ (s._stop_requested = true → s.recorder.is_recording = false →
          request_stop s = s) := by
  obtain ⟨⟨rec_flag, frames, st, dl, cb, th⟩, stop_flag⟩ := s
  refine ⟨?_, ?_, ?_⟩
  · cases rec_flag <;> simp [request_stop]
  · intro h
    simp only at h
    subst h
    simp [request_stop]
  · intro h1 h2
    simp only at h1 h2
    subst h1
    subst h2
    simp [request_stop]

theorem C7_request_stop_amended_witness :
    request_stop (request_stop { recorder := idleRecorder, _stop_requested := false })
        = request_stop { recorder := idleRecorder, _stop_requested := false }
      ∧ request_stop { recorder := idleRecorder, _stop_requested := false }
          = { recorder := idleRecorder, _stop_requested := true }
      ∧ request_stop { recorder := idleRecorder, _stop_requested := true }
          = { recorder := idleRecorder, _stop_requested := true } :=
  ⟨(C7_request_stop_amended ⟨idleRecorder, false⟩).1,
    (C7_request_stop_amended ⟨idleRecorder, false⟩).2.1 rfl,
    (C7_request_stop_amended ⟨idleRecorder, true⟩).2.2 rfl rfl⟩

/-- Claim C8: if a recording is already active, `start_recording` returns
false and leaves every field of the recorder state — frame store, start
timestamp, duration limit, callback, recording thread — unchanged. -/
theorem C8_start_recording_active_no_side_effect (s : AudioRecorderState)
    (duration_minutes on_recording_callback : Option ℕ)
    (now config_duration_minutes new_thread : ℕ)
    (h : s.is_recording = true) :
    start_recording s duration_minutes on_recording_callback now
        config_duration_minutes new_thread = (false, s) := by
  simp [start_recording, h]

def activeRecorder : AudioRecorderState :=
  { is_recording := true, audio_frames := [7, 8], start_time := some 5,
    duration_limit := some 60, on_recording_callback := some 1,
    recording_thread := some 2 }

theorem C8_start_recording_active_no_side_effect_witness :
    start_recording activeRecorder (some 10) none 99 60 3
      = (false, activeRecorder) :=
  C8_start_recording_active_no_side_effect activeRecorder (some 10) none
    99 60 3 rfl

/-! ## WhisperClient (src/transcription/whisper_client.py)

The result dictionaries are modelled as structures with one field per key
the embedded code reads or writes; the two speech engines
(`self.openai_client.audio.transcriptions.create` and
`self.model.transcribe`) are I/O and enter the model as oracle functions
from (path, language) to either a raw result or a raised exception's
message, held in the client structure alongside the `local_only` and
`openai_client` configuration flags. Times are rationals in seconds. -/

structure WordTiming where
  word : String
  start : ℚ
  stop : ℚ
deriving DecidableEq

structure TranscriptionSegment where
  start : ℚ
  stop : ℚ
  text : String
  words : List WordTiming
  chunk_index : Option ℕ := none
deriving DecidableEq

structure TranscriptionResult where
  text : String
  language : String
  duration : ℚ
  segments : List TranscriptionSegment
  words : List WordTiming
  method : String
  chunk_index : Option ℕ := none
  chunk_path : Option String := none
  error : Option String := none
deriving DecidableEq

/-- Raw `verbose_json` response of the OpenAI transcription endpoint. -/
structure RemoteRawResult where
  text : String
  language : String
  duration : ℚ
  segments : List TranscriptionSegment
  words : List WordTiming
deriving DecidableEq

/-- Raw dictionary returned by `self.model.transcribe`; `language` models
`result.get("language", language)` being possibly absent. -/
structure LocalRawResult where
  text : String
  language : Option String
  segments : List TranscriptionSegment
deriving DecidableEq

structure WhisperClient where
  local_only : Bool
  openai_client : Bool
  remote : String → String → Except String RemoteRawResult
  model : String → String → Except String LocalRawResult

/-- `WhisperClient._extract_words_from_segments`: concatenates the word
lists of the segments in order (a segment without a `words` key is
modelled by an empty word list). -/
def _extract_words_from_segments (segments : List TranscriptionSegment) :
    List WordTiming :=
  segments.foldl (fun words segment => words ++ segment.words) []

/-- `WhisperClient._transcribe_with_openai_api`: on success, repackages
the response and tags `method="openai_api"`. -/
def _transcribe_with_openai_api (c : WhisperClient)
    (audio_file_path language : String) : Except String TranscriptionResult :=
  match c.remote audio_file_path language with
  | .error e => .error e
  | .ok t =>
      .ok { text := t.text, language := t.language, duration := t.duration,
            segments := t.segments, words := t.words, method := "openai_api" }

/-- `WhisperClient._transcribe_with_local_model`: on success, approximates
the duration as `len(segments) * 10`, extracts word timings from the
segments, and tags `method="local_model"`. -/
def _transcribe_with_local_model (c : WhisperClient)
    (audio_file_path language : String) : Except String TranscriptionResult :=
  match c.model audio_file_path language with
  | .error e => .error e
  | .ok r =>
      .ok { text := r.text, language := r.language.getD language,
            duration := (r.segments.length : ℚ) * 10, segments := r.segments,
            words := _extract_words_from_segments r.segments,
            method := "local_model" }

/-- `WhisperClient.transcribe_file`: local engine directly when
`local_only` is set or no OpenAI client was initialized; otherwise the
OpenAI API first, falling back to the local engine on any API exception.
The enclosing try/except re-raises, so errors pass through. -/
def transcribe_file (c : WhisperClient) (audio_file_path : String)
    (language : String := "ko") : Except String TranscriptionResult :=
  if c.local_only || !c.openai_client then
    _transcribe_with_local_model c audio_file_path language
  else
    match _transcribe_with_openai_api c audio_file_path language with
    | .ok result => .ok result
    | .error _ => _transcribe_with_local_model c audio_file_path language

/-- `WhisperClient.transcribe_chunks`: one entry appended per chunk in
enumeration order; a chunk whose recognition raises is replaced by the
empty "failed" entry carrying the error, and the loop continues. -/
def transcribe_chunks (c : WhisperClient) (audio_chunks : List String)
    (language : String := "ko") : List TranscriptionResult :=
  audio_chunks.enum.map fun ip =>
    match transcribe_file c ip.2 language with
    | .ok result =>
        { result with chunk_index := some ip.1, chunk_path := some ip.2 }
    | .error e =>
        { text := "", language := language, duration := 0, segments := [],
          words := [], method := "failed", chunk_index := some ip.1,
          chunk_path := some ip.2, error := some e }

/-- Accumulators of the merge loop in
`WhisperClient.merge_transcription_results`. -/
structure MergeAcc where
  merged_text : String
  merged_segments : List TranscriptionSegment
  merged_words : List WordTiming
  total_duration : ℚ
deriving DecidableEq

/-- One iteration of the merge loop over `enumerate(results)`: results
with falsy (empty) text are skipped entirely; otherwise the text is
appended (space-separated), each segment is copied with `chunk_index := i`
and appended as-is, the words are appended as-is, and the duration is
accumulated. -/
def mergeStep (acc : MergeAcc) (ir : ℕ × TranscriptionResult) : MergeAcc :=
  if ir.2.text ≠ "" then
    { merged_text :=
        (if acc.merged_text ≠ "" then acc.merged_text ++ " "
         else acc.merged_text) ++ ir.2.text
      merged_segments := acc.merged_segments
        ++ ir.2.segments.map fun segment => { segment with chunk_index := some ir.1 }
      merged_words := acc.merged_words ++ ir.2.words
      total_duration := acc.total_duration + ir.2.duration }
  else acc

/-- The merged dictionary (the `timestamp` key, `datetime.now()`, is
outside the model). -/
structure MergedResult where
  text : String
  language : String
  duration : ℚ
  segments : List TranscriptionSegment
  words : List WordTiming
  chunk_count : ℕ
  method : String
deriving DecidableEq

/-- `WhisperClient.merge_transcription_results`. -/
def merge_transcription_results (results : List TranscriptionResult) :
    MergedResult :=
  let acc := results.enum.foldl mergeStep
    { merged_text := "", merged_segments := [], merged_words := [],
      total_duration := 0 }
  { text := acc.merged_text.trim
    language := match results with
      | [] => "ko"
      | r :: _ => r.language
    duration := acc.total_duration
    segments := acc.merged_segments
    words := acc.merged_words
    chunk_count := results.length
    method := "merged" }

theorem transcribe_chunks_getElem? (c : WhisperClient)
    (audio_chunks : List String) (language : String) (i : ℕ)
    (hi : i < audio_chunks.length) :
    (transcribe_chunks c audio_chunks language)[i]? =
      some (match transcribe_file c audio_chunks[i] language with
        | .ok result =>
            { result with
              chunk_index := some i, chunk_path := some audio_chunks[i] }
        | .error e =>
            { text := "", language := language, duration := 0,
              segments := [], words := [], method := "failed",
              chunk_index := some i, chunk_path := some audio_chunks[i],
              error := some e }) := by
  unfold transcribe_chunks
  rw [List.getElem?_map, List.getElem?_enum, List.getElem?_eq_getElem hi]
  rfl

/-- Claim C10: `transcribe_chunks` returns exactly one entry per input
chunk, in original order, the entry at position `i` carrying
`chunk_index = i`, whether the chunk succeeded or failed. -/
theorem C10_transcribe_chunks_index_order (c : WhisperClient)
    (audio_chunks : List String) (language : String) :
    (transcribe_chunks c audio_chunks language).length = audio_chunks.length
      ∧ (transcribe_chunks c audio_chunks language).map (·.chunk_index)
          = (List.range audio_chunks.length).map some := by
  constructor
  · unfold transcribe_chunks
    rw [List.length_map, List.enum_length]
  · unfold transcribe_chunks
    rw [List.map_map]
    trans (audio_chunks.enum.map fun ip : ℕ × String => some ip.1)
    · apply List.map_congr_left
      intro ip _
      rcases ip with ⟨i, p⟩
      simp only [Function.comp_apply]
      cases transcribe_file c p language <;> rfl
    · rw [show (fun ip : ℕ × String => some ip.1)
          = (some ∘ Prod.fst) from rfl, ← List.map_map, List.enum_map_fst]

/-- Claim C5: when recognition of the chunk at position `i` throws, its
entry in `transcribe_chunks`'s result is the empty ChunkTranscript —
empty text, zero duration, no segments or words, `method = "failed"`,
error attached — and processing continues: the result still has one entry
per chunk and every successfully recognized chunk keeps its result. -/
theorem C5_failed_chunk_isolation (c : WhisperClient)
    (audio_chunks : List String) (language : String) (i : ℕ)
    (hi : i < audio_chunks.length) (e : String)
    (hfail : transcribe_file c audio_chunks[i] language = .error e) :
    (transcribe_chunks c audio_chunks language).length = audio_chunks.length
      ∧ (transcribe_chunks c audio_chunks language)[i]? =
          some { text := "", language := language, duration := 0,
                 segments := [], words := [], method := "failed",
                 chunk_index := some i, chunk_path := some audio_chunks[i],
                 error := some e }
      ∧ ∀ (j : ℕ) (hj : j < audio_chunks.length)
          (result : TranscriptionResult),
          transcribe_file c audio_chunks[j] language = .ok result →
          (transcribe_chunks c audio_chunks language)[j]? =
            some { result with
                   chunk_index := some j,
                   chunk_path := some audio_chunks[j] } := by
  refine ⟨?_, ?_, ?_⟩
  · unfold transcribe_chunks
    rw [List.length_map, List.enum_length]
  · rw [transcribe_chunks_getElem? c audio_chunks language i hi, hfail]
  · intro j hj result hok
    rw [transcribe_chunks_getElem? c audio_chunks language j hj, hok]

def c5Model : WhisperClient :=
  { local_only := true, openai_client := false,
    remote := fun _ _ => .error "unreachable",
    model := fun p _ =>
      if p = "bad.wav" then .error "boom"
      else .ok { text := "ok", language := some "ko", segments := [] } }

theorem C5_failed_chunk_isolation_witness :
    (transcribe_chunks c5Model ["good.wav", "bad.wav"] "ko").length = 2
      ∧ (transcribe_chunks c5Model ["good.wav", "bad.wav"] "ko")[1]? =
          some { text := "", language := "ko", duration := 0, segments := [],
                 words := [], method := "failed", chunk_index := some 1,
                 chunk_path := some "bad.wav", error := some "boom" }
      ∧ (transcribe_chunks c5Model ["good.wav", "bad.wav"] "ko")[0]? =
          some { text := "ok", language := "ko", duration := 0,
                 segments := [], words := [], method := "local_model",
                 chunk_index := some 0, chunk_path := some "good.wav" } := by
  have h := C5_failed_chunk_isolation c5Model ["good.wav", "bad.wav"] "ko" 1
    (by decide) "boom" rfl
  refine ⟨h.1, h.2.1, ?_⟩
  have h0 := h.2.2 0 (by decide)
    { text := "ok", language := "ko", duration := 0, segments := [],
      words := [], method := "local_model" }
    (by simp [transcribe_file, _transcribe_with_local_model, c5Model,
      _extract_words_from_segments])
  exact h0

def c6RemoteDown : WhisperClient :=
  { local_only := false, openai_client := true,
    remote := fun _ _ => .error "network error",
    model := fun _ _ =>
      .ok { text := "t", language := some "ko", segments := [] } }

/-- Claim C6 counterexample: with the remote recognizer always failing,
every chunk does fall back to the local engine, but the method tag the
code writes is `"local_model"`, not `"local"` as the claim states. -/
theorem C6_method_tag_counterexample :
    ((transcribe_chunks c6RemoteDown ["a.wav", "b.wav"] "ko").map (·.method))
        = ["local_model", "local_model"]
      ∧ "local_model" ≠ "local" := by
  exact ⟨rfl, by decide⟩

/-- Claim C6 (amended): single-chunk recognition goes directly to the
local engine when configured local-only or when no OpenAI client exists;
otherwise the remote recognizer is attempted first — its success is
returned as-is and on any remote failure the call falls back to the local
engine for that chunk; hence when the remote recognizer always fails and
the local engine succeeds, every entry of a chunk list resolves locally
and every method tag reads `"local_model"` (the code's tag for the local
engine, not the spec's `"local"`). -/
theorem C6_fallback_routing_amended :
    (∀ (c : WhisperClient) (p lang : String),
        c.local_only = true ∨ c.openai_client = false →
        transcribe_file c p lang = _transcribe_with_local_model c p lang)
      ∧ (∀ (c : WhisperClient) (p lang : String)
          (result : TranscriptionResult),
          c.local_only = false → c.openai_client = true →
          _transcribe_with_openai_api c p lang = .ok result →
          transcribe_file c p lang = .ok result)
      ∧ (∀ (c : WhisperClient) (p lang e : String),
          _transcribe_with_openai_api c p lang = .error e →
          transcribe_file c p lang = _transcribe_with_local_model c p lang)
      ∧ (∀ (c : WhisperClient) (audio_chunks : List String)
          (language : String),
          (∀ p l, ∃ e, c.remote p l = .error e) →
          (∀ p l, ∃ r, c.model p l = .ok r) →
          ((transcribe_chunks c audio_chunks language).map (·.method)).all
            (· == "local_model") = true) := by
  refine ⟨?_, ?_, ?_, ?_⟩
  · intro c p lang h
    unfold transcribe_file
    rcases h with h | h <;> rw [h] <;> simp
  · intro c p lang result h1 h2 hok
    unfold transcribe_file
    rw [h1, h2, hok]
    rfl
  · intro c p lang e herr
    unfold transcribe_file
    by_cases hb : (c.local_only || !c.openai_client) = true
    · rw [if_pos hb]
    · rw [if_neg hb, herr]
  · intro c audio_chunks language hremote hlocal
    rw [List.all_eq_true]
    intro m hm
    rw [List.mem_map] at hm
    obtain ⟨r, hr, rfl⟩ := hm
    unfold transcribe_chunks at hr
    rw [List.mem_map] at hr
    obtain ⟨⟨i, p⟩, _, rfl⟩ := hr
    obtain ⟨rr, hrr⟩ := hlocal p language
    have hloc : _transcribe_with_local_model c p language
        = .ok { text := rr.text, language := rr.language.getD language,
                duration := (rr.segments.length : ℚ) * 10,
                segments := rr.segments,
                words := _extract_words_from_segments rr.segments,
                method := "local_model" } := by
      unfold _transcribe_with_local_model
      rw [hrr]
    have htf : transcribe_file c p language
        = _transcribe_with_local_model c p language := by
      unfold transcribe_file
      by_cases hb : (c.local_only || !c.openai_client) = true
      · rw [if_pos hb]
      · rw [if_neg hb]
        obtain ⟨e, he⟩ := hremote p language
        unfold _transcribe_with_openai_api
        rw [he]
    simp only [htf, hloc]
    rfl

theorem C6_fallback_routing_amended_witness :
    ((transcribe_chunks c6RemoteDown ["a.wav", "b.wav"] "ko").map
      (·.method)).all (· == "local_model") = true :=
  C6_fallback_routing_amended.2.2.2 c6RemoteDown ["a.wav", "b.wav"] "ko"
    (fun _ _ => ⟨"network error", rfl⟩)
    (fun _ _ => ⟨{ text := "t", language := some "ko", segments := [] }, rfl⟩)

def c1Chunk0 : TranscriptionResult :=
  { text := "hello", language := "ko", duration := 10,
    segments := [{ start := 0, stop := 2, text := "he", words := [] },
                 { start := 5, stop := 7, text := "llo", words := [] }],
    words := [{ word := "hello", start := 1, stop := 2 }],
    method := "local_model" }

def c1Chunk1 : TranscriptionResult :=
  { text := "world", language := "ko", duration := 10,
    segments := [{ start := 0, stop := 3, text := "world", words := [] }],
    words := [{ word := "world", start := 1, stop := 2 }],
    method := "local_model" }

/-- Claim C1, evaluated at the failing input: merging two 10-second chunk
results leaves every segment and word start/end at its chunk-relative
value — the second chunk's segment still starts at 0, not at 10 — so the
merged segment start times are not monotonically non-decreasing across the
chunk boundary, contrary to the claim, the spec, and the code's own
comment that a time offset is applied. -/
theorem C1_merge_applies_no_time_offset :
    ((merge_transcription_results [c1Chunk0, c1Chunk1]).segments.map
        (·.start) = [0, 5, 0])
      ∧ ((merge_transcription_results [c1Chunk0, c1Chunk1]).words.map
          (·.start) = [1, 1])
      ∧ ¬ List.Chain' (· ≤ ·)
          ((merge_transcription_results [c1Chunk0, c1Chunk1]).segments.map
            (·.start)) := by
  refine ⟨rfl, rfl, fun h => ?_⟩
  rw [show (merge_transcription_results [c1Chunk0, c1Chunk1]).segments.map
      (·.start) = [(0 : ℚ), 5, 0] from rfl] at h
  rw [List.chain'_cons, List.chain'_cons] at h
  have h5 : (5 : ℚ) ≤ 0 := h.2.1
  norm_num at h5

def c2Silent : TranscriptionResult :=
  { text := "", language := "ko", duration := 5, segments := [],
    words := [], method := "openai_api" }

/-- Claim C2 counterexample: a chunk result whose text is empty but whose
reported duration is 5 contributes nothing to the merged duration — the
merge skips results with falsy text entirely — so the total is 0, not the
sum 5 of all reported durations. -/
theorem C2_merge_duration_counterexample :
    (merge_transcription_results [c2Silent]).duration = 0
      ∧ (merge_transcription_results [c2Silent]).duration ≠ 5 := by
  have h : (merge_transcription_results [c2Silent]).duration = 0 := rfl
  refine ⟨h, ?_⟩
  rw [h]
  norm_num

theorem mergeStep_total_duration (acc : MergeAcc)
    (ir : ℕ × TranscriptionResult) :
    (mergeStep acc ir).total_duration
      = if ir.2.text ≠ "" then acc.total_duration + ir.2.duration
        else acc.total_duration := by
  unfold mergeStep
  by_cases h : ir.2.text ≠ ""
  · rw [if_pos h, if_pos h]
  · rw [if_neg h, if_neg h]

theorem mergeFoldl_total_duration (l : List TranscriptionResult) :
    ∀ (n : ℕ) (acc : MergeAcc),
      ((List.enumFrom n l).foldl mergeStep acc).total_duration
        = acc.total_duration
            + ((l.filter fun r => r.text ≠ "").map (·.duration)).sum := by
  induction l with
  | nil =>
    intro n acc
    simp
  | cons r rs ih =>
    intro n acc
    simp only [List.enumFrom, List.foldl_cons]
    rw [ih (n + 1) (mergeStep acc (n, r)), mergeStep_total_duration]
    by_cases h : r.text = ""
    · rw [if_neg (by simp [h])]
      congr 1
      rw [List.filter_cons, if_neg (by simp [h])]
    · rw [if_pos (by simp [h])]
      rw [List.filter_cons, if_pos (by simp [h])]
      simp only [List.map_cons, List.sum_cons]
      ring

/-- Claim C2 (amended): the merged duration equals the sum of the reported
durations of exactly those chunk results whose text is non-empty; results
with empty text (failed chunks, but also any successful chunk recognized
as empty) contribute nothing, so the total is not independent of text
content. -/
theorem C2_merge_duration_amended (results : List TranscriptionResult) :
    (merge_transcription_results results).duration
      = ((results.filter fun r => r.text ≠ "").map (·.duration)).sum := by
  show ((List.enumFrom 0 results).foldl mergeStep
    { merged_text := "", merged_segments := [], merged_words := [],
      total_duration := 0 }).total_duration = _
  rw [mergeFoldl_total_duration]
  simp

end MeetingSummary
